import Mathlib

/-!
# Verification of the tectonic resource-resolution core

Shallow embedding of `src/find.rs` (format registry, archive-backed finder,
global resolver) and `src/io/stdstreams.rs` (buffered repeatable primary
input), with theorems settling the specification claims.

Modelling conventions:
* A filesystem path (`Path`) is its list of normalized components, as
  produced by Rust's `Path::components()` iterator: no `""` or `"."`
  entries, but `".."` components may appear.  `Path::file_name()` returns
  the last component unless the path is empty or ends in `".."`.
* Raw file descriptors are abstract naturals (`Fd := Nat`).
* The ambient filesystem is a function `Path → Option Fd` giving the
  result of `File::open` on each path; the opened zip archive is a
  function `Path → ZipOutcome` giving the result of the
  `zip_to_temp_fd` extraction helper for each entry name.
* Process aborts (Rust `panic!` / `.unwrap()` on `None`) are the
  `RunResult.fatal` outcome; normal returns are `RunResult.ok`.
-/

namespace Tectonic

/-- Raw OS file descriptor (abstract). -/
abbrev Fd := Nat

/-- A filesystem path as its list of normalized components
(cf. `std::path::Path`). -/
abbrev Path := List String

/-- Rust `Path::file_name()`: the last component, unless the path is empty
or terminates in `..`. -/
def Path.fileName (p : Path) : Option String :=
  match List.getLast? p with
  | none => none
  | some c => if c = ".." then none else some c

/-- Rust `PathBuf::set_file_name` in the case where `file_name()` is
`Some`: pop the last component and push the new one.  (The source only
calls it after a successful `file_name().unwrap()`.) -/
def Path.setFileName (p : Path) (s : String) : Path :=
  List.dropLast p ++ [s]

/-- The `enum FileFormat` from `src/find.rs`. -/
inductive FileFormat
  | TFM
  | Pict
  | Tex
  | Format
  deriving DecidableEq, Repr

/-- Embedding of `pub fn c_format_to_rust (format: libc::c_int) -> Option<FileFormat>`
from `src/find.rs`. -/
def c_format_to_rust (format : Int) : Option FileFormat :=
  match format with
  | 3 => some FileFormat.TFM
  | 10 => some FileFormat.Format
  | 25 => some FileFormat.Pict
  | 26 => some FileFormat.Tex
  | _ => none

/-- Embedding of `fn format_to_extension (format: FileFormat) -> &'static str`
from `src/find.rs`. -/
def format_to_extension (format : FileFormat) : String :=
  match format with
  | FileFormat.TFM => ".tfm"
  | FileFormat.Pict => ".pdf"
  | FileFormat.Tex => ".tex"
  | FileFormat.Format => ".fmt"

/-- Outcome of the `zip_to_temp_fd` extraction helper for one entry name:
the entry was found and materialized as a descriptor (`found`), `by_name`
reported `ZipError::FileNotFound` (`notFound`), or `by_name` reported any
other `ZipError` (`otherError`). -/
inductive ZipOutcome
  | found (fd : Fd)
  | notFound
  | otherError
  deriving DecidableEq, Repr

/-- The decoded archive of a `FinderState`: the result of
`zip_to_temp_fd` on each entry name. -/
abbrev Zip := Path → ZipOutcome

/-- Result of running a piece of the resolver: a normal return, or a
process abort (Rust `panic!`, or `.unwrap()` on a `None`). -/
inductive RunResult (α : Type)
  | ok (val : α)
  | fatal
  deriving DecidableEq, Repr

/-- The extension-augmented form of `name` computed by
`FinderState::get_readable_fd` (`src/find.rs` lines 89–92): take the final
component via `file_name().unwrap()` — aborting when there is none —
append `format_to_extension format` to it, and set it back as the file
name. -/
def augmentedNameFinder (name : Path) (format : FileFormat) : RunResult Path :=
  match Path.fileName name with
  | none => RunResult.fatal
  | some fname =>
      RunResult.ok (Path.setFileName name (fname ++ format_to_extension format))

/-- The identical extension-augmented form computed a second time by the
top-level `get_readable_fd` (`src/find.rs` lines 139–142, marked
"XXX redundant code" in the source). -/
def augmentedNameResolver (name : Path) (format : FileFormat) : RunResult Path :=
  match Path.fileName name with
  | none => RunResult.fatal
  | some fname =>
      RunResult.ok (Path.setFileName name (fname ++ format_to_extension format))

/-- Embedding of `FinderState::get_readable_fd` from `src/find.rs` (lines 75–109): the
archive-backed finder's `locate`.  It first computes the
extension-augmented name (aborting if `name` has no final component), then
tries `zip_to_temp_fd` on the exact name — any error there is discarded —
then on the augmented name, where `FileNotFound` is logged and yields
`none` while any other error is a `panic!`.  The `Bool` argument is the
ignored `must_exist` flag. -/
def FinderState.get_readable_fd (zip : Zip) (name : Path) (format : FileFormat)
    (_must_exist : Bool) : RunResult (Option Fd) :=
  match augmentedNameFinder name format with
  | RunResult.fatal => RunResult.fatal
  | RunResult.ok ext =>
      match zip name with
      | ZipOutcome.found fd => RunResult.ok (some fd)
      | _ =>
          match zip ext with
          | ZipOutcome.found fd => RunResult.ok (some fd)
          | ZipOutcome.notFound => RunResult.ok none
          | ZipOutcome.otherError => RunResult.fatal

/-- The global singleton's contents: `Mutex<Option<FinderState<File>>>`,
initialized to `None` by `lazy_static!`. -/
def initialSingleton : Option Zip := none

/-- Embedding of `pub fn open_bundle (path: &Path)` from `src/find.rs`: replaces the
singleton's contents with a freshly constructed finder.  (Opening the file
and decoding the archive are `.unwrap()`ed — fatal on failure — so a
successfully decoded archive `z` is the only way this returns.) -/
def open_bundle (_s : Option Zip) (z : Zip) : Option Zip :=
  some z

/-- Embedding of `pub fn get_readable_fd (name, format, must_exist)` from `src/find.rs`
(lines 127–154): the full resolution chain over a filesystem `fs` and the
singleton state `s`.  Try the direct filesystem open; then the
extension-augmented filesystem open (unwrapping the final component —
fatal when there is none); then, if the bundle has been opened, the
finder; otherwise `none`. -/
def get_readable_fd (fs : Path → Option Fd) (s : Option Zip) (name : Path)
    (format : FileFormat) (must_exist : Bool) : RunResult (Option Fd) :=
  match fs name with
  | some fd => RunResult.ok (some fd)
  | none =>
      match augmentedNameResolver name format with
      | RunResult.fatal => RunResult.fatal
      | RunResult.ok ext =>
          match fs ext with
          | some fd => RunResult.ok (some fd)
          | none =>
              match s with
              | some zip => FinderState.get_readable_fd zip name format must_exist
              | none => RunResult.ok none

/-- One externally observable operation on the global resolver
singleton. -/
inductive ResolverOp
  | openBundle (z : Zip)
  | resolve (fs : Path → Option Fd) (name : Path) (format : FileFormat)
      (must_exist : Bool)

/-- The effect of one operation on the singleton's state: `open_bundle`
stores a finder; `get_readable_fd` only reads the state (it mutates the
finder's internal cursor, never the `Option`'s discriminant). -/
def resolverStep (s : Option Zip) : ResolverOp → Option Zip
  | ResolverOp.openBundle z => open_bundle s z
  | ResolverOp.resolve _ _ _ _ => s

/-- The singleton's state after a sequence of operations, starting
empty. -/
def resolverStateAfter (ops : List ResolverOp) : Option Zip :=
  List.foldl resolverStep initialSingleton ops

/-! Embedding of `src/io/stdstreams.rs`: the shared byte buffer, the
cursor over it, and the buffered primary-input provider.  Bytes are
modelled as naturals. -/

/-- Embedding of `struct SharedByteBuffer(Rc<Vec<u8>>)`: a reference-counted immutable
byte sequence.  Sharing the one `Rc` is modelled by sharing the value. -/
structure SharedByteBuffer where
  data : List Nat
  deriving DecidableEq, Repr

/-- The cursor type `Cursor<SharedByteBuffer>` from `std::io`: a read position over the
shared buffer. -/
structure Cursor where
  buffer : SharedByteBuffer
  pos : Nat
  deriving DecidableEq, Repr

/-- The seek origin `std::io::SeekFrom`. -/
inductive SeekFrom
  | start (n : Nat)
  | fromEnd (off : Int)
  | current (off : Int)
  deriving DecidableEq, Repr

/-- Embedding of `std::io::Cursor::seek`: `Start` sets the position outright (beyond
the end is allowed); `End`/`Current` offset from the buffer length or the
current position and fail on a negative result, leaving the cursor
unchanged.  Returns the new position alongside the moved cursor. -/
def Cursor.seek (c : Cursor) (sf : SeekFrom) : Except Unit (Cursor × Nat) :=
  match sf with
  | SeekFrom.start n => Except.ok ({ c with pos := n }, n)
  | SeekFrom.fromEnd off =>
      let n : Int := (c.buffer.data.length : Int) + off
      if 0 ≤ n then Except.ok ({ c with pos := Int.toNat n }, Int.toNat n)
      else Except.error ()
  | SeekFrom.current off =>
      let n : Int := (c.pos : Int) + off
      if 0 ≤ n then Except.ok ({ c with pos := Int.toNat n }, Int.toNat n)
      else Except.error ()

/-- Embedding of `InputFeatures::get_size` for `Cursor<SharedByteBuffer>`
(`src/io/stdstreams.rs` lines 55–57): the shared buffer's length. -/
def Cursor.get_size (c : Cursor) : Except Unit Nat :=
  Except.ok c.buffer.data.length

/-- Embedding of `InputFeatures::try_seek` for `Cursor<SharedByteBuffer>`
(`src/io/stdstreams.rs` lines 59–61): delegates to `seek`. -/
def Cursor.try_seek (c : Cursor) (sf : SeekFrom) : Except Unit (Cursor × Nat) :=
  Cursor.seek c sf

/-- Reading the cursor to completion (`std::io::Read` on `Cursor`): the
bytes of the shared buffer from the current position on. -/
def Cursor.read_to_end (c : Cursor) : List Nat :=
  List.drop c.pos c.buffer.data

/-- One result of a `Read::read` call on the source stream handed to
`from_stream`: a chunk of bytes (empty meaning end of input; at most 8192
bytes fit the read buffer, though no claim depends on the bound), or an
I/O error.  A list of these models the successive reads the source
yields; reads past the end of the list return zero bytes. -/
inductive ReadEvent
  | chunk (bytes : List Nat)
  | ioError
  deriving DecidableEq, Repr

/-- The bytes one read event yields. -/
def ReadEvent.bytes : ReadEvent → List Nat
  | ReadEvent.chunk bs => bs
  | ReadEvent.ioError => []

/-- The read loop of `BufferedPrimaryIo::from_stream`
(`src/io/stdstreams.rs` lines 90–98): read chunks and accumulate them
until a read returns zero bytes; a read error is propagated via `?`. -/
def readToExhaustion : List ReadEvent → Except Unit (List Nat)
  | [] => Except.ok []
  | ReadEvent.ioError :: _ => Except.error ()
  | ReadEvent.chunk [] :: _ => Except.ok []
  | ReadEvent.chunk (b :: bs) :: rest =>
      match readToExhaustion rest with
      | Except.error e => Except.error e
      | Except.ok tail => Except.ok ((b :: bs) ++ tail)

/-- Embedding of `pub struct BufferedPrimaryIo { buffer: SharedByteBuffer }`. -/
structure BufferedPrimaryIo where
  buffer : SharedByteBuffer
  deriving DecidableEq, Repr

/-- Embedding of `BufferedPrimaryIo::from_stream` (`src/io/stdstreams.rs` lines
86–103): slurp the stream, then wrap the accumulated bytes as the shared
buffer of a new provider. -/
def BufferedPrimaryIo.from_stream (stream : List ReadEvent) :
    Except Unit BufferedPrimaryIo :=
  match readToExhaustion stream with
  | Except.error e => Except.error e
  | Except.ok alldata => Except.ok { buffer := { data := alldata } }

/-- Embedding of `IoProvider::input_open_primary` for `BufferedPrimaryIo`
(`src/io/stdstreams.rs` lines 118–120): a fresh `Cursor::new` over a
clone of the shared buffer's `Rc` (the same buffer, not a copy). -/
def BufferedPrimaryIo.input_open_primary (bp : BufferedPrimaryIo) : Cursor :=
  { buffer := bp.buffer, pos := 0 }

/-- The pure image of calling `input_open_primary` twice on one
provider: the pair of the two resulting handles. -/
def openTwice (bp : BufferedPrimaryIo) : Cursor × Cursor :=
  ( BufferedPrimaryIo.input_open_primary bp, BufferedPrimaryIo.input_open_primary bp)

/-- Seeking the first of a pair of handles; the second handle is a
distinct cursor value and is not touched. -/
def seekFirst (cs : Cursor × Cursor) (sf : SeekFrom) : Cursor × Cursor :=
  match Cursor.try_seek cs.1 sf with
  | Except.ok (c, _) => (c, cs.2)
  | Except.error _ => cs

end Tectonic

namespace Tectonic

/-- C4: `c_format_to_rust` (the spec's `classify`) is a pure total function:
3 ↦ TFM, 10 ↦ Format (PrecompiledFormat), 25 ↦ Pict (Picture),
26 ↦ Tex (TeXSource), and every other integer code ↦ none. -/
theorem c_format_to_rust_spec :
    ∀ code : Int,
      c_format_to_rust code =
        if code = 3 then some FileFormat.TFM
        else if code = 10 then some FileFormat.Format
        else if code = 25 then some FileFormat.Pict
        else if code = 26 then some FileFormat.Tex
        else none := by
  intro code
  unfold c_format_to_rust
  split
  · simp
  · simp
  · simp
  · simp
  · rename_i h3 h10 h25 h26
    rw [if_neg h3, if_neg h10, if_neg h25, if_neg h26]

/-- C5: `format_to_extension` (the spec's `extension_for`) returns exactly
the canonical suffix for each format tag: TFM ↦ ".tfm", Pict ↦ ".pdf",
Tex ↦ ".tex", Format ↦ ".fmt". -/
theorem format_to_extension_spec :
    format_to_extension FileFormat.TFM = ".tfm" ∧
    format_to_extension FileFormat.Pict = ".pdf" ∧
    format_to_extension FileFormat.Tex = ".tex" ∧
    format_to_extension FileFormat.Format = ".fmt" :=
  ⟨rfl, rfl, rfl, rfl⟩

/-- A filesystem on which a single path opens, yielding descriptor 3. -/
def fsDirect : Path → Option Fd :=
  fun p => if p = ["cmr10"] then some 3 else none

/-- A filesystem on which only the extension-augmented path opens,
yielding descriptor 4. -/
def fsExtOnly : Path → Option Fd :=
  fun p => if p = ["cmr10.tfm"] then some 4 else none

/-- A filesystem on which no path opens. -/
def fsEmpty : Path → Option Fd :=
  fun _ => none

/-- An archive in which every extraction reports `FileNotFound`. -/
def zipAbsent : Zip :=
  fun _ => ZipOutcome.notFound

/-- C1: the resolution chain of `get_readable_fd`.  (1) If `name` opens
directly on the filesystem, its descriptor is returned immediately, for
every singleton state — no other store is consulted.  Otherwise (and when
`name` has a final component): (2) if the extension-augmented path opens,
its descriptor is returned, again for every singleton state; otherwise
(3) with an opened bundle the result is exactly the finder's locate — in
particular a finder "not found" yields `none` — and (4) with no bundle
opened the result is `none`. -/
theorem resolve_chain_spec (fs : Path → Option Fd) (name : Path)
    (format : FileFormat) (b : Bool) :
    (∀ fd : Fd, fs name = some fd →
      ∀ s : Option Zip,
        get_readable_fd fs s name format b = RunResult.ok (some fd)) ∧
    (∀ fname : String, Path.fileName name = some fname → fs name = none →
      (∀ fd : Fd,
        fs (Path.setFileName name (fname ++ format_to_extension format)) =
          some fd →
        ∀ s : Option Zip,
          get_readable_fd fs s name format b = RunResult.ok (some fd)) ∧
      (fs (Path.setFileName name (fname ++ format_to_extension format)) =
          none →
        (∀ zip : Zip,
          get_readable_fd fs (some zip) name format b =
            FinderState.get_readable_fd zip name format b) ∧
        (∀ zip : Zip,
          FinderState.get_readable_fd zip name format b = RunResult.ok none →
          get_readable_fd fs (some zip) name format b = RunResult.ok none) ∧
        get_readable_fd fs none name format b = RunResult.ok none)) := by
  constructor
  · intro fd h s
    simp only [get_readable_fd, h]
  · intro fname hf hn
    constructor
    · intro fd he s
      simp only [get_readable_fd, augmentedNameResolver, hn, hf, he]
    · intro he
      refine ⟨?_, ?_, ?_⟩
      · intro zip
        simp only [get_readable_fd, augmentedNameResolver, hn, hf, he]
      · intro zip hz
        simp only [get_readable_fd, augmentedNameResolver, hn, hf, he, hz]
      · simp only [get_readable_fd, augmentedNameResolver, hn, hf, he]

/-- Witness for C1: the chain at concrete inputs — direct hit, augmented
hit, miss with no bundle, and delegation to the finder. -/
theorem resolve_chain_spec_witness :
    get_readable_fd fsDirect (some zipAbsent) ["cmr10"] FileFormat.TFM true =
      RunResult.ok (some 3) ∧
    get_readable_fd fsExtOnly none ["cmr10"] FileFormat.TFM true =
      RunResult.ok (some 4) ∧
    get_readable_fd fsEmpty none ["cmr10"] FileFormat.TFM true =
      RunResult.ok none ∧
    get_readable_fd fsEmpty (some zipAbsent) ["cmr10"] FileFormat.TFM true =
      FinderState.get_readable_fd zipAbsent ["cmr10"] FileFormat.TFM true := by
  refine ⟨?_, ?_, ?_, ?_⟩
  · exact (resolve_chain_spec fsDirect ["cmr10"] FileFormat.TFM true).1 3
      (by decide) (some zipAbsent)
  · exact (((resolve_chain_spec fsExtOnly ["cmr10"] FileFormat.TFM true).2
      "cmr10" (by decide) (by decide)).1) 4 (by decide) none
  · exact (((resolve_chain_spec fsEmpty ["cmr10"] FileFormat.TFM true).2
      "cmr10" (by decide) rfl).2 rfl).2.2
  · exact ((((resolve_chain_spec fsEmpty ["cmr10"] FileFormat.TFM true).2
      "cmr10" (by decide) rfl).2 rfl).1) zipAbsent

/-- C7: the `must_exist` flag does not change the behavior of the
resolution chain: for every filesystem, singleton state, name and format,
`resolve` with `must_exist = b1` equals `resolve` with `must_exist = b2`. -/
theorem must_exist_noop (fs : Path → Option Fd) (s : Option Zip)
    (name : Path) (format : FileFormat) (b1 b2 : Bool) :
    get_readable_fd fs s name format b1 = get_readable_fd fs s name format b2 := rfl

/-- C10: when the direct filesystem open of `name` fails and `name` has no
final file-name component (empty path, or a path ending in `..`), `resolve`
aborts at the `file_name().unwrap()` step instead of returning `none`. -/
theorem resolve_fatal_without_file_name (fs : Path → Option Fd)
    (s : Option Zip) (name : Path) (format : FileFormat) (b : Bool)
    (h1 : fs name = none) (h2 : Path.fileName name = none) :
    get_readable_fd fs s name format b = RunResult.fatal := by
  simp only [get_readable_fd, augmentedNameResolver, h1, h2]

/-- Witness for C10: the empty path, and a path ending in `..`, both abort
when absent from the filesystem. -/
theorem resolve_fatal_without_file_name_witness :
    get_readable_fd fsEmpty none ([] : Path) FileFormat.Tex true =
      RunResult.fatal ∧
    get_readable_fd fsEmpty none ["a", ".."] FileFormat.Tex true =
      RunResult.fatal :=
  ⟨resolve_fatal_without_file_name fsEmpty none [] FileFormat.Tex true rfl rfl,
   resolve_fatal_without_file_name fsEmpty none ["a", ".."] FileFormat.Tex true
     rfl (by decide)⟩

/-- An archive whose extraction of the entry `a` fails with an error other
than `FileNotFound`, while every other entry is absent. -/
def zipFirstErr : Zip :=
  fun p => if p = ["a"] then ZipOutcome.otherError else ZipOutcome.notFound

/-- An archive on which every extraction fails with an error other than
`FileNotFound`. -/
def zipCorrupt : Zip :=
  fun _ => ZipOutcome.otherError

/-- Counterexample to C2: on the archive `zipFirstErr`, the first
(exact-name) extraction attempt for `a` fails with a non-`FileNotFound`
error, yet `locate` does not abort — it falls through to the
extension-augmented attempt, finds nothing, and returns `none`. -/
theorem locate_first_attempt_error_not_fatal :
    zipFirstErr ["a"] = ZipOutcome.otherError ∧
    FinderState.get_readable_fd zipFirstErr ["a"] FileFormat.Tex true =
      RunResult.ok none := by
  constructor
  · decide
  · decide

/-- C2 (amended): the error policy of `FinderState::get_readable_fd`.  The
outcome of the first (exact-name) extraction attempt is never inspected
beyond success: when it does not yield a descriptor — whether the entry
was absent or the extraction failed with any other error — the finder
proceeds to the extension-augmented attempt.  Only there is the
distinction made: genuine absence is reported softly as `none`, and any
other extraction failure aborts the process. -/
theorem locate_error_policy (zip : Zip) (name : Path) (fname : String)
    (format : FileFormat) (b : Bool)
    (hf : Path.fileName name = some fname) :
    (∀ fd : Fd, zip name = ZipOutcome.found fd →
      FinderState.get_readable_fd zip name format b =
        RunResult.ok (some fd)) ∧
    (zip name = ZipOutcome.notFound ∨ zip name = ZipOutcome.otherError →
      (∀ fd : Fd,
        zip (Path.setFileName name (fname ++ format_to_extension format)) =
          ZipOutcome.found fd →
        FinderState.get_readable_fd zip name format b =
          RunResult.ok (some fd)) ∧
      (zip (Path.setFileName name (fname ++ format_to_extension format)) =
          ZipOutcome.notFound →
        FinderState.get_readable_fd zip name format b = RunResult.ok none) ∧
      (zip (Path.setFileName name (fname ++ format_to_extension format)) =
          ZipOutcome.otherError →
        FinderState.get_readable_fd zip name format b = RunResult.fatal)) := by
  constructor
  · intro fd h1
    simp only [FinderState.get_readable_fd, augmentedNameFinder, hf, h1]
  · intro h1
    refine ⟨?_, ?_, ?_⟩
    · intro fd h2
      rcases h1 with h1 | h1 <;>
        simp only [FinderState.get_readable_fd, augmentedNameFinder, hf, h1, h2]
    · intro h2
      rcases h1 with h1 | h1 <;>
        simp only [FinderState.get_readable_fd, augmentedNameFinder, hf, h1, h2]
    · intro h2
      rcases h1 with h1 | h1 <;>
        simp only [FinderState.get_readable_fd, augmentedNameFinder, hf, h1, h2]

/-- Witness for the amended C2: a not-found on both attempts yields `none`;
a corrupt-archive error on the extension-augmented attempt aborts. -/
theorem locate_error_policy_witness :
    FinderState.get_readable_fd zipAbsent ["a"] FileFormat.Tex true =
      RunResult.ok none ∧
    FinderState.get_readable_fd zipCorrupt ["a"] FileFormat.Tex true =
      RunResult.fatal := by
  constructor
  · exact ((locate_error_policy zipAbsent ["a"] "a" FileFormat.Tex true
      (by decide)).2 (Or.inl (by decide))).2.1 (by decide)
  · exact ((locate_error_policy zipCorrupt ["a"] "a" FileFormat.Tex true
      (by decide)).2 (Or.inr (by decide))).2.2 (by decide)

/-- C6: the extension-augmented name used by the filesystem fallback and
by the archive fallback is the same, and for a name with final component
`fname` — whether or not `fname` already carries an extension — it is the
name with that final component replaced by `fname` with the format's
canonical extension appended. -/
theorem augmented_name_rule (name : Path) (fname : String)
    (format : FileFormat) (hf : Path.fileName name = some fname) :
    augmentedNameResolver name format =
      RunResult.ok
        (List.dropLast name ++ [fname ++ format_to_extension format]) ∧
    augmentedNameFinder name format = augmentedNameResolver name format := by
  constructor
  · simp only [augmentedNameResolver, hf, Path.setFileName]
  · rfl

/-- Witness for C6: a bare name gains the extension; a name already
carrying an extension has the extension appended to it, on the final
component only. -/
theorem augmented_name_rule_witness :
    augmentedNameResolver ["fonts", "cmr10"] FileFormat.TFM =
      RunResult.ok ["fonts", "cmr10.tfm"] ∧
    augmentedNameResolver ["fonts", "cmr10.tfm"] FileFormat.TFM =
      RunResult.ok ["fonts", "cmr10.tfm.tfm"] := by
  constructor
  · exact (augmented_name_rule ["fonts", "cmr10"] "cmr10" FileFormat.TFM
      (by decide)).1
  · exact (augmented_name_rule ["fonts", "cmr10.tfm"] "cmr10.tfm"
      FileFormat.TFM (by decide)).1

/-- The singleton is empty after a run from state `s` exactly when `s` was
empty and no `open_bundle` call occurred. -/
lemma foldl_resolverStep_none_iff (ops : List ResolverOp) :
    ∀ s : Option Zip,
      List.foldl resolverStep s ops = none ↔
        (s = none ∧ ∀ z : Zip, ResolverOp.openBundle z ∉ ops) := by
  induction ops with
  | nil =>
      intro s
      constructor
      · intro h
        exact ⟨h, fun z hz => (List.not_mem_nil _ hz)⟩
      · intro h
        exact h.1
  | cons op rest ih =>
      intro s
      rw [List.foldl_cons, ih]
      cases op with
      | openBundle z =>
          constructor
          · rintro ⟨h1, -⟩
            exact Option.noConfusion h1
          · rintro ⟨-, h2⟩
            exact absurd (List.mem_cons_self _ _) (h2 z)
      | resolve fs name format b =>
          constructor
          · rintro ⟨h1, h2⟩
            refine ⟨h1, fun z hz => ?_⟩
            rcases List.mem_cons.mp hz with h | h
            · exact ResolverOp.noConfusion h
            · exact h2 z h
          · rintro ⟨h1, h2⟩
            exact ⟨h1, fun z hz => h2 z (List.mem_cons.mpr (Or.inr hz))⟩

/-- C3: lifecycle of the global resolver singleton.  It starts empty;
no operation ever takes a populated state back to empty; a `resolve` call
never changes the state at all; and after any sequence of operations the
singleton is empty exactly when no `open_bundle` call occurred — so the
empty-to-populated transition happens only through an explicit
`open_bundle`, and the state holds at most one finder throughout. -/
theorem singleton_lifecycle :
    initialSingleton = none ∧
    (∀ (s : Option Zip) (op : ResolverOp),
      s ≠ none → resolverStep s op ≠ none) ∧
    (∀ (s : Option Zip) (fs : Path → Option Fd) (name : Path)
      (format : FileFormat) (b : Bool),
      resolverStep s (ResolverOp.resolve fs name format b) = s) ∧
    (∀ ops : List ResolverOp,
      resolverStateAfter ops = none ↔
        ∀ z : Zip, ResolverOp.openBundle z ∉ ops) := by
  refine ⟨rfl, ?_, ?_, ?_⟩
  · intro s op hs
    cases op with
    | openBundle z => exact fun h => Option.noConfusion h
    | resolve fs name format b => exact hs
  · intro s fs name format b
    rfl
  · intro ops
    rw [resolverStateAfter, foldl_resolverStep_none_iff]
    constructor
    · intro h
      exact h.2
    · intro h
      exact ⟨rfl, h⟩

/-- Witness for C3: a populated state stays populated across an
`open_bundle`, and a run consisting of one `resolve` call leaves the
singleton empty. -/
theorem singleton_lifecycle_witness :
    resolverStep (some zipAbsent) (ResolverOp.openBundle zipAbsent) ≠ none ∧
    resolverStateAfter
      [ResolverOp.resolve fsEmpty ["a"] FileFormat.TFM true] = none := by
  constructor
  · exact singleton_lifecycle.2.1 (some zipAbsent)
      (ResolverOp.openBundle zipAbsent) (fun h => Option.noConfusion h)
  · refine (singleton_lifecycle.2.2.2
      [ResolverOp.resolve fsEmpty ["a"] FileFormat.TFM true]).mpr ?_
    intro z hz
    rcases List.mem_cons.mp hz with h | h
    · exact ResolverOp.noConfusion h
    · exact List.not_mem_nil _ h

/-- When every read yields a nonempty chunk, the loop accumulates exactly
the concatenation of the chunks, in order. -/
lemma readToExhaustion_all_chunks :
    ∀ stream : List ReadEvent,
      (∀ e ∈ stream, ∃ bs, e = ReadEvent.chunk bs ∧ bs ≠ []) →
      readToExhaustion stream =
        Except.ok (List.flatten (List.map ReadEvent.bytes stream)) := by
  intro stream
  induction stream with
  | nil => intro _; rfl
  | cons e rest ih =>
      intro h
      obtain ⟨bs, he, hne⟩ := h e (List.mem_cons_self _ _)
      subst he
      cases bs with
      | nil => exact absurd rfl hne
      | cons b bt =>
          have hr := ih (fun e' he' => h e' (List.mem_cons.mpr (Or.inr he')))
          simp [readToExhaustion, hr, ReadEvent.bytes]

/-- A read error reached before any zero-byte read makes the loop return
the error. -/
lemma readToExhaustion_error :
    ∀ good rest : List ReadEvent,
      (∀ e ∈ good, ∃ bs, e = ReadEvent.chunk bs ∧ bs ≠ []) →
      readToExhaustion (good ++ ReadEvent.ioError :: rest) =
        Except.error () := by
  intro good
  induction good with
  | nil => intro rest _; rfl
  | cons e g ih =>
      intro rest h
      obtain ⟨bs, he, hne⟩ := h e (List.mem_cons_self _ _)
      subst he
      cases bs with
      | nil => exact absurd rfl hne
      | cons b bt =>
          have hr := ih rest (fun e' he' => h e' (List.mem_cons.mpr (Or.inr he')))
          simp [readToExhaustion, hr]

/-- C8: `from_stream` reads the source to exhaustion — when every read
yields a nonempty chunk, the returned provider's shared buffer is exactly
the concatenation of all bytes the source yielded; when the source
errors before a zero-byte read, the error is propagated and no provider
is returned. -/
theorem from_stream_spec (stream : List ReadEvent) :
    ((∀ e ∈ stream, ∃ bs, e = ReadEvent.chunk bs ∧ bs ≠ []) →
      BufferedPrimaryIo.from_stream stream =
        Except.ok
          { buffer :=
              { data := List.flatten (List.map ReadEvent.bytes stream) } }) ∧
    (∀ good rest : List ReadEvent,
      stream = good ++ ReadEvent.ioError :: rest →
      (∀ e ∈ good, ∃ bs, e = ReadEvent.chunk bs ∧ bs ≠ []) →
      BufferedPrimaryIo.from_stream stream = Except.error ()) := by
  constructor
  · intro h
    simp only [ BufferedPrimaryIo.from_stream,
      readToExhaustion_all_chunks stream h]
  · intro good rest hs h
    subst hs
    simp only [ BufferedPrimaryIo.from_stream,
      readToExhaustion_error good rest h]

/-- Witness for C8: two chunks concatenate in order; an error after a
chunk propagates. -/
theorem from_stream_spec_witness :
    BufferedPrimaryIo.from_stream
        [ReadEvent.chunk [1, 2], ReadEvent.chunk [3]] =
      Except.ok
        { buffer :=
            { data := List.flatten (List.map ReadEvent.bytes
                [ReadEvent.chunk [1, 2], ReadEvent.chunk [3]]) } } ∧
    BufferedPrimaryIo.from_stream [ReadEvent.chunk [1], ReadEvent.ioError] =
      Except.error () := by
  constructor
  · refine (from_stream_spec
      [ReadEvent.chunk [1, 2], ReadEvent.chunk [3]]).1 ?_
    intro e he
    rcases List.mem_cons.mp he with h | h
    · exact ⟨[1, 2], h, by decide⟩
    · rcases List.mem_cons.mp h with h2 | h2
      · exact ⟨[3], h2, by decide⟩
      · exact absurd h2 (List.not_mem_nil _)
  · refine (from_stream_spec [ReadEvent.chunk [1], ReadEvent.ioError]).2
      [ReadEvent.chunk [1]] [] rfl ?_
    intro e he
    rcases List.mem_cons.mp he with h | h
    · exact ⟨[1], h, by decide⟩
    · exact absurd h (List.not_mem_nil _)

/-- C9: every `input_open_primary` call yields a fresh cursor at position
zero over the provider's one shared buffer, reporting the buffer's size
and supporting arbitrary seeks; two handles opened from the same provider
read identical byte sequences to completion — the full buffer — and a
seek on one handle leaves the other handle (in particular its position)
unchanged. -/
theorem open_primary_spec (bp : BufferedPrimaryIo) :
    ( BufferedPrimaryIo.input_open_primary bp).pos = 0 ∧
    ( BufferedPrimaryIo.input_open_primary bp).buffer = bp.buffer ∧
    Cursor.get_size ( BufferedPrimaryIo.input_open_primary bp) =
      Except.ok bp.buffer.data.length ∧
    (∀ n : Nat,
      Cursor.try_seek ( BufferedPrimaryIo.input_open_primary bp)
          (SeekFrom.start n) =
        Except.ok ({ buffer := bp.buffer, pos := n }, n)) ∧
    Cursor.read_to_end (openTwice bp).1 = Cursor.read_to_end (openTwice bp).2 ∧
    Cursor.read_to_end (openTwice bp).1 = bp.buffer.data ∧
    (∀ sf : SeekFrom, (seekFirst (openTwice bp) sf).2 = (openTwice bp).2) := by
  refine ⟨rfl, rfl, rfl, fun n => rfl, rfl, rfl, ?_⟩
  intro sf
  cases sf with
  | start n => rfl
  | fromEnd off =>
      simp only [seekFirst, Cursor.try_seek, Cursor.seek]
      split <;> rfl
  | current off =>
      simp only [seekFirst, Cursor.try_seek, Cursor.seek]
      split <;> rfl

end Tectonic
